import Mathlib

/-!
Shallow embedding of `src/rich/log.py` (class `Log`) and verification of its
specification claims.

The `Log` class keeps a buffer of rendered lines (`self._buffer`, a list of
lines, each line a list of segments).  `add` renders the given renderables
immediately with the log's console and appends the resulting lines to the
buffer, then trims the buffer with `del self._buffer[: -self.scrollback]`
when `scrollback` is not `None`.  `__rich_console__` yields the segments of
`self._buffer[-height:]` where `height = options.height or console.height`.

Python slice deletion and slicing with a possibly-negative bound is modelled
exactly (`pyBound`, `pySliceFrom`), including the `-0 == 0` corner case that
makes `del buf[:0]` a no-op, and Python truthiness of `or` on integers
(`0` is falsy), which makes `options.height = 0` fall back to
`console.height`.
-/

namespace RichLog

/-- Modelled from the spec: a `Segment` (from `rich/segment.py`, not under
`src/`) is identified here by its text content; the log logic never inspects
segments. -/
abbrev Segment := String

/-- Modelled from the spec: a style specifier (`rich/style.py` is not under
`src/`); opaque to the log logic. -/
abbrev StyleType := String

/-- Modelled from the spec: a resolved style; opaque to the log logic. -/
abbrev Style := String

/-- Modelled from the spec: a renderable (`RenderableType`) is identified by
an opaque key; what lines it renders to is determined by the console's
`render_lines`. -/
abbrev RenderableType := String

/-- Modelled from the spec: the parts of `rich.console.Console` (not under
`src/`) that `Log` uses: a terminal `height`, `get_style` and
`render_lines(renderable, style, new_lines=True)` which returns a list of
lines (lists of segments). -/
structure Console where
  height : Int
  get_style : StyleType → Style
  render_lines : RenderableType → Style → List (List Segment)

/-- Modelled from the spec: `rich.get_console()` returns the ambient global
console used when `Log` is constructed without an explicit console.  Each
renderable is treated as a single-line item rendering to one line holding
its own text. -/
def get_console : Console :=
  { height := 25
    get_style := fun s => s
    render_lines := fun r _ => [[r]] }

/-- Modelled from the spec: the fields of `rich.console.ConsoleOptions` that
`Log.__rich_console__` reads: the optional render `height` (and the
available width, unused by `Log`). -/
structure ConsoleOptions where
  height : Option Int
  max_width : Int

/-- Clamp a (possibly negative) Python slice index `i` into `[0, len]`,
exactly as Python does: a negative index counts from the end. -/
def pyBound (len : Nat) (i : Int) : Nat :=
  if i < 0 then ((len : Int) + i).toNat else min i.toNat len

/-- `pySliceFrom l i` is Python's `l[i:]`.  It is also the list remaining
after Python's `del l[:i]`, since both leave exactly the elements from the
clamped index on. -/
def pySliceFrom {α : Type} (l : List α) (i : Int) : List α :=
  l.drop (pyBound l.length i)

/-- The state of a `rich.log.Log` object: `scrollback`, `style`, `console`
and the buffer of rendered lines `self._buffer` (the lock only guards
concurrent access and has no sequential effect). -/
structure Log where
  scrollback : Option Int
  style : StyleType
  console : Console
  _buffer : List (List Segment)

/-- Embeds `Log.__init__(scrollback=1000, *, style="log", console=None)`:
stores the arguments, resolves `console or get_console()` and starts with an
empty buffer.  Python's default arguments are recorded separately (see
`Log.init_default`). -/
def Log.init (scrollback : Option Int) (style : StyleType)
    (console : Option Console) : Log :=
  { scrollback := scrollback
    style := style
    console := console.getD get_console
    _buffer := [] }

/-- Embeds calling `Log()` with every argument left to its declared default:
`scrollback=1000`, `style="log"`, `console=None`. -/
def Log.init_default : Log :=
  Log.init (some 1000) "log" none

/-- Embeds `Log._render(console, renderables)`: resolve the log's style once,
render each renderable to lines with `console.render_lines` and concatenate
the lines in order. -/
def Log._render (log : Log) (console : Console)
    (renderables : List RenderableType) : List (List Segment) :=
  let style := console.get_style log.style
  (renderables.map (fun r => console.render_lines r style)).flatten

/-- Embeds `Log.add(*renderables)`: extend the buffer with the freshly
rendered lines, then, when `scrollback` is not `None`, execute
`del self._buffer[: -self.scrollback]`. -/
def Log.add (log : Log) (renderables : List RenderableType) : Log :=
  let buf := log._buffer ++ log._render log.console renderables
  let buf2 := match log.scrollback with
    | none => buf
    | some s => pySliceFrom buf (-s)
  { log with _buffer := buf2 }

/-- Python's `options.height or console.height`: `None` and `0` are falsy,
every other integer is truthy. -/
def effectiveHeight (console : Console) (options : ConsoleOptions) : Int :=
  match options.height with
  | none => console.height
  | some h => if h = 0 then console.height else h

/-- The lines selected by `Log.__rich_console__`: `self._buffer[-height:]`
with `height = options.height or console.height`. -/
def Log.rich_console_lines (log : Log) (console : Console)
    (options : ConsoleOptions) : List (List Segment) :=
  pySliceFrom log._buffer (-(effectiveHeight console options))

/-- Embeds `Log.__rich_console__(console, options)`: yields the segments of
the selected lines in order.  The method assigns no field, so the post-state
returned alongside the output is the unchanged log. -/
def Log.rich_console (log : Log) (console : Console)
    (options : ConsoleOptions) : List Segment × Log :=
  ((log.rich_console_lines console options).flatten, log)

/-- A whole session: a sequence of `add` calls, each with its tuple of
renderables, applied in order. -/
def applyAdds (log : Log) (adds : List (List RenderableType)) : Log :=
  adds.foldl Log.add log

/-- All lines the session's `add` calls render, in the order they are
produced (the cumulative rendered-line sequence).  `add` never changes
`console` or `style`, so rendering with the initial log is exact. -/
def allRendered (log : Log) (adds : List (List RenderableType)) :
    List (List Segment) :=
  (adds.map (fun rs => log._render log.console rs)).flatten

/-- The last `n` elements of a list (all of it when it is shorter). -/
def lastN {α : Type} (n : Nat) (l : List α) : List α :=
  l.drop (l.length - n)

lemma pySliceFrom_neg {α : Type} (s : Int) (hs : 1 ≤ s) (l : List α) :
    pySliceFrom l (-s) = lastN s.toNat l := by
  unfold pySliceFrom pyBound lastN
  rw [if_pos (by omega : -s < 0)]
  congr 1
  omega

lemma pySliceFrom_zero {α : Type} (l : List α) : pySliceFrom l 0 = l := by
  simp [pySliceFrom, pyBound]

lemma lastN_length {α : Type} (n : Nat) (l : List α) :
    (lastN n l).length = min n l.length := by
  unfold lastN
  rw [List.length_drop]
  omega

lemma lastN_of_length_le {α : Type} {n : Nat} {l : List α} (h : l.length ≤ n) :
    lastN n l = l := by
  unfold lastN
  rw [Nat.sub_eq_zero_of_le h, List.drop_zero]

lemma lastN_append_absorb {α : Type} (n : Nat) (x y : List α) :
    lastN n (lastN n x ++ y) = lastN n (x ++ y) := by
  simp only [lastN, List.length_append, List.length_drop,
    List.drop_append_eq_append_drop, List.drop_drop]
  congr 1
  · congr 1
    omega
  · congr 1
    omega

lemma add_scrollback (log : Log) (rs : List RenderableType) :
    (log.add rs).scrollback = log.scrollback := rfl

lemma add_buffer_of_none {log : Log} (h : log.scrollback = none)
    (rs : List RenderableType) :
    (log.add rs)._buffer = log._buffer ++ log._render log.console rs := by
  simp [Log.add, h]

lemma add_buffer_of_some {log : Log} {s : Int} (h : log.scrollback = some s)
    (rs : List RenderableType) :
    (log.add rs)._buffer
      = pySliceFrom (log._buffer ++ log._render log.console rs) (-s) := by
  simp [Log.add, h]

lemma allRendered_cons (log : Log) (rs : List RenderableType)
    (adds : List (List RenderableType)) :
    allRendered log (rs :: adds)
      = log._render log.console rs ++ allRendered log adds := by
  simp [allRendered]

lemma allRendered_add (log : Log) (rs : List RenderableType)
    (adds : List (List RenderableType)) :
    allRendered (log.add rs) adds = allRendered log adds := rfl

lemma applyAdds_cons (log : Log) (rs : List RenderableType)
    (adds : List (List RenderableType)) :
    applyAdds log (rs :: adds) = applyAdds (log.add rs) adds := rfl

lemma applyAdds_buffer_some (s : Int) (hs : 1 ≤ s)
    (adds : List (List RenderableType)) :
    ∀ log : Log, log.scrollback = some s → log._buffer.length ≤ s.toNat →
      (applyAdds log adds)._buffer
        = lastN s.toNat (log._buffer ++ allRendered log adds) := by
  induction adds with
  | nil =>
    intro log _ hlen
    simp only [applyAdds, List.foldl_nil, allRendered, List.map_nil,
      List.flatten_nil, List.append_nil]
    exact (lastN_of_length_le hlen).symm
  | cons rs adds ih =>
    intro log hsc hlen
    have hstep : (log.add rs)._buffer
        = lastN s.toNat (log._buffer ++ log._render log.console rs) := by
      rw [add_buffer_of_some hsc, pySliceFrom_neg s hs]
    have hsc' : (log.add rs).scrollback = some s := hsc
    have hlen' : (log.add rs)._buffer.length ≤ s.toNat := by
      rw [hstep, lastN_length]
      omega
    calc (applyAdds log (rs :: adds))._buffer
        = (applyAdds (log.add rs) adds)._buffer := by rw [applyAdds_cons]
      _ = lastN s.toNat ((log.add rs)._buffer ++ allRendered (log.add rs) adds) :=
          ih (log.add rs) hsc' hlen'
      _ = lastN s.toNat
            (lastN s.toNat (log._buffer ++ log._render log.console rs)
              ++ allRendered log adds) := by
          rw [hstep, allRendered_add]
      _ = lastN s.toNat
            ((log._buffer ++ log._render log.console rs)
              ++ allRendered log adds) := lastN_append_absorb _ _ _
      _ = lastN s.toNat (log._buffer ++ allRendered log (rs :: adds)) := by
          rw [allRendered_cons, List.append_assoc]

lemma applyAdds_buffer_keep (adds : List (List RenderableType)) :
    ∀ log : Log, log.scrollback = none ∨ log.scrollback = some 0 →
      (applyAdds log adds)._buffer = log._buffer ++ allRendered log adds := by
  induction adds with
  | nil =>
    intro log _
    simp [applyAdds, allRendered]
  | cons rs adds ih =>
    intro log h
    have hstep : (log.add rs)._buffer
        = log._buffer ++ log._render log.console rs := by
      rcases h with h | h
      · exact add_buffer_of_none h rs
      · rw [add_buffer_of_some h, Int.neg_zero, pySliceFrom_zero]
    have h' : (log.add rs).scrollback = none ∨ (log.add rs).scrollback = some 0 := h
    calc (applyAdds log (rs :: adds))._buffer
        = (applyAdds (log.add rs) adds)._buffer := by rw [applyAdds_cons]
      _ = (log.add rs)._buffer ++ allRendered (log.add rs) adds :=
          ih (log.add rs) h'
      _ = (log._buffer ++ log._render log.console rs) ++ allRendered log adds := by
          rw [hstep, allRendered_add]
      _ = log._buffer ++ allRendered log (rs :: adds) := by
          rw [allRendered_cons, List.append_assoc]

lemma suffix_append_right {α : Type} {x y : List α} (z : List α)
    (h : x <:+ y) : x ++ z <:+ y ++ z := by
  obtain ⟨p, hp⟩ := h
  exact ⟨p, by rw [← List.append_assoc, hp]⟩

lemma add_buffer_suffix (log : Log) (rs : List RenderableType) :
    (log.add rs)._buffer <:+ log._buffer ++ log._render log.console rs := by
  cases h : log.scrollback with
  | none =>
    rw [add_buffer_of_none h]
  | some s =>
    rw [add_buffer_of_some h]
    exact List.drop_suffix _ _

lemma applyAdds_buffer_suffix (adds : List (List RenderableType)) :
    ∀ log : Log,
      (applyAdds log adds)._buffer <:+ log._buffer ++ allRendered log adds := by
  induction adds with
  | nil =>
    intro log
    simp [applyAdds, allRendered]
  | cons rs adds ih =>
    intro log
    have h1 : (applyAdds log (rs :: adds))._buffer
        <:+ (log.add rs)._buffer ++ allRendered log adds := by
      rw [applyAdds_cons]
      have := ih (log.add rs)
      rwa [allRendered_add] at this
    have h2 : (log.add rs)._buffer ++ allRendered log adds
        <:+ (log._buffer ++ log._render log.console rs) ++ allRendered log adds :=
      suffix_append_right _ (add_buffer_suffix log rs)
    have h3 := h1.trans h2
    rwa [List.append_assoc, ← allRendered_cons] at h3

/-- C1 fails as stated: with the non-`None` scrollback `0`, the trimming
statement `del self._buffer[: -0]` is `del self._buffer[:0]`, a no-op, so
after one `add` of a single-line item followed by a render the buffer holds
1 line, exceeding the configured scrollback of 0. -/
theorem C1_counterexample :
    (Log.init (some 0) "log" none).scrollback = some 0 ∧
    (((((Log.init (some 0) "log" none).add ["a"]).rich_console get_console
        ⟨none, 80⟩).2)._buffer).length = 1 ∧
    ¬ (1 : Int) ≤ 0 := by
  decide

/-- C1 (amended to positive scrollback): for every Log constructed with
`scrollback = s` where `s ≥ 1`, after any sequence of `add` calls followed
by a render, the number of retained lines never exceeds `s`. -/
theorem C1_scrollback_bound (s : Int) (hs : 1 ≤ s) (style : StyleType)
    (console : Option Console) (adds : List (List RenderableType))
    (c2 : Console) (opts : ConsoleOptions) :
    (((((applyAdds (Log.init (some s) style console) adds).rich_console c2
        opts).2)._buffer).length : Int) ≤ s := by
  have hb := applyAdds_buffer_some s hs adds (Log.init (some s) style console)
    rfl (by simp [Log.init])
  have h2 : ((applyAdds (Log.init (some s) style console) adds)._buffer).length
      = min s.toNat
          ((Log.init (some s) style console)._buffer
            ++ allRendered (Log.init (some s) style console) adds).length := by
    rw [hb, lastN_length]
  have h3 : (((applyAdds (Log.init (some s) style console) adds).rich_console
      c2 opts).2)._buffer
      = (applyAdds (Log.init (some s) style console) adds)._buffer := rfl
  rw [h3, h2]
  omega

theorem C1_witness :
    (1 : Int) ≤ 3 ∧
    (((((applyAdds (Log.init (some 3) "log" none) [["a"], ["b"]]).rich_console
        get_console ⟨none, 80⟩).2)._buffer).length : Int) ≤ 3 :=
  ⟨by norm_num,
    C1_scrollback_bound 3 (by norm_num) "log" none [["a"], ["b"]] get_console
      ⟨none, 80⟩⟩

/-- C2 fails as stated at `scrollback = 0`: after rendering 1 line (more
than 0), the buffer should hold exactly the most recent 0 lines, i.e. be
empty, but the trimming is a no-op and the buffer is nonempty. -/
theorem C2_counterexample :
    0 < (allRendered (Log.init (some 0) "log" none) [["a"]]).length ∧
    (applyAdds (Log.init (some 0) "log" none) [["a"]])._buffer ≠ [] := by
  decide

/-- C2 (amended to positive scrollback): for `scrollback = k` with `k ≥ 1`,
after the cumulative rendered-line count exceeds `k`, the buffer holds
exactly the `k` most recently rendered lines, in original order. -/
theorem C2_retains_last_k (k : Int) (hk : 1 ≤ k) (style : StyleType)
    (console : Option Console) (adds : List (List RenderableType))
    (hlen : k < ((allRendered (Log.init (some k) style console) adds).length : Int)) :
    (applyAdds (Log.init (some k) style console) adds)._buffer
      = (allRendered (Log.init (some k) style console) adds).drop
          ((allRendered (Log.init (some k) style console) adds).length - k.toNat) ∧
    (((applyAdds (Log.init (some k) style console) adds)._buffer).length : Int) = k := by
  have hb := applyAdds_buffer_some k hk adds (Log.init (some k) style console)
    rfl (by simp [Log.init])
  have hnil : (Log.init (some k) style console)._buffer = [] := rfl
  rw [hnil, List.nil_append] at hb
  constructor
  · rw [hb]
    rfl
  · rw [hb, lastN_length]
    omega

theorem C2_witness :
    (1 : Int) ≤ 2 ∧
    ((applyAdds (Log.init (some 2) "log" none) [["a"], ["b"], ["c"]])._buffer
      = (allRendered (Log.init (some 2) "log" none) [["a"], ["b"], ["c"]]).drop
          ((allRendered (Log.init (some 2) "log" none)
            [["a"], ["b"], ["c"]]).length - 2) ∧
    (((applyAdds (Log.init (some 2) "log" none)
        [["a"], ["b"], ["c"]])._buffer).length : Int) = 2) :=
  ⟨by norm_num,
    C2_retains_last_k 2 (by norm_num) "log" none [["a"], ["b"], ["c"]]
      (by decide)⟩

/-- C3 fails as stated at height 0: Python's `options.height or
console.height` treats a specified height of `0` as falsy, so the console
height is used instead; on a 1-line buffer a render with `height = 0`
returns 1 line, not `min 0 1 = 0` lines. -/
theorem C3_counterexample :
    (((Log.init none "log" none).add ["a"])._buffer).length = 1 ∧
    (((Log.init none "log" none).add ["a"]).rich_console_lines get_console
        ⟨some 0, 80⟩).length = 1 ∧
    1 ≠ min 0 1 := by
  decide

/-- C3 (amended to positive heights): a render with specified height
`h ≥ 1` on a buffer of `n` lines returns exactly `min h n` lines, and they
are the most recent lines of the buffer; a render with no height behaves as
a render whose height is the console's height (height `0` also does, being
falsy under `or`). -/
theorem C3_render_height (log : Log) (c : Console) (o : ConsoleOptions)
    (h : Int) (hh : 1 ≤ h) (ho : o.height = some h) :
    (log.rich_console_lines c o).length = min h.toNat (log._buffer).length ∧
    log.rich_console_lines c o = lastN h.toNat log._buffer ∧
    log.rich_console_lines c ⟨none, o.max_width⟩
      = log.rich_console_lines c ⟨some c.height, o.max_width⟩ := by
  have heff : effectiveHeight c o = h := by
    unfold effectiveHeight
    rw [ho]
    exact if_neg (by omega)
  have hmain : log.rich_console_lines c o = lastN h.toNat log._buffer := by
    unfold Log.rich_console_lines
    rw [heff, pySliceFrom_neg h hh]
  refine ⟨?_, hmain, ?_⟩
  · rw [hmain, lastN_length]
  · unfold Log.rich_console_lines effectiveHeight
    simp

theorem C3_witness :
    (1 : Int) ≤ 2 ∧
    ((((Log.init none "log" none).add ["a", "b", "c"]).rich_console_lines
        get_console ⟨some 2, 80⟩).length
      = min 2 ((((Log.init none "log" none).add ["a", "b", "c"])._buffer).length) ∧
    ((Log.init none "log" none).add ["a", "b", "c"]).rich_console_lines
        get_console ⟨some 2, 80⟩
      = lastN 2 (((Log.init none "log" none).add ["a", "b", "c"])._buffer) ∧
    ((Log.init none "log" none).add ["a", "b", "c"]).rich_console_lines
        get_console ⟨none, 80⟩
      = ((Log.init none "log" none).add ["a", "b", "c"]).rich_console_lines
          get_console ⟨some get_console.height, 80⟩) :=
  ⟨by norm_num,
    C3_render_height ((Log.init none "log" none).add ["a", "b", "c"])
      get_console ⟨some 2, 80⟩ 2 (by norm_num) rfl⟩

/-- C4: items are reflected strictly in FIFO order: for any scrollback
configuration and any sequence of `add` calls, the retained buffer is a
suffix of the cumulative rendered-line sequence (so lines of a later item
never precede lines of an earlier one, and each item's internal line order
is preserved), and every render returns a suffix of the buffer. -/
theorem C4_fifo (scrollback : Option Int) (style : StyleType)
    (console : Option Console) (adds : List (List RenderableType))
    (c2 : Console) (o2 : ConsoleOptions) :
    (applyAdds (Log.init scrollback style console) adds)._buffer
      <:+ allRendered (Log.init scrollback style console) adds ∧
    (applyAdds (Log.init scrollback style console) adds).rich_console_lines c2 o2
      <:+ (applyAdds (Log.init scrollback style console) adds)._buffer := by
  constructor
  · have := applyAdds_buffer_suffix adds (Log.init scrollback style console)
    rwa [show (Log.init scrollback style console)._buffer = [] from rfl,
      List.nil_append] at this
  · exact List.drop_suffix _ _

/-- C5: with `scrollback = None` no line is ever dropped: after any
sequence of `add` calls the buffer is exactly the previous buffer followed
by every rendered line, so its length is the total number of lines added. -/
theorem C5_unlimited (log : Log) (h : log.scrollback = none)
    (adds : List (List RenderableType)) :
    (applyAdds log adds)._buffer = log._buffer ++ allRendered log adds ∧
    ((applyAdds log adds)._buffer).length
      = (log._buffer).length + (allRendered log adds).length := by
  have hb := applyAdds_buffer_keep adds log (Or.inl h)
  exact ⟨hb, by rw [hb, List.length_append]⟩

theorem C5_witness :
    (Log.init none "log" none).scrollback = none ∧
    ((applyAdds (Log.init none "log" none) [["a"], ["b"], ["c"], ["d"]])._buffer
      = (Log.init none "log" none)._buffer
        ++ allRendered (Log.init none "log" none) [["a"], ["b"], ["c"], ["d"]] ∧
    ((applyAdds (Log.init none "log" none)
        [["a"], ["b"], ["c"], ["d"]])._buffer).length
      = ((Log.init none "log" none)._buffer).length
        + (allRendered (Log.init none "log" none)
            [["a"], ["b"], ["c"], ["d"]]).length) :=
  ⟨rfl, C5_unlimited (Log.init none "log" none) rfl [["a"], ["b"], ["c"], ["d"]]⟩

/-- C6 fails as stated: `add` does touch the line buffer directly (and
renders eagerly): after `add` of one item the buffer differs from the
buffer before the call, so `add`'s effect is not confined to a pending
queue (the code has no pending queue at all). -/
theorem C6_counterexample :
    ((Log.init (some 1000) "log" none).add ["a"])._buffer
      ≠ (Log.init (some 1000) "log" none)._buffer := by
  decide

/-- C6 (amended): `add` renders the given renderables immediately with the
log's console via `_render`, appends the resulting lines to the line
buffer, and then trims the buffer per the scrollback setting; `scrollback`,
`style` and `console` are unchanged.  The trim is expressed uniformly:
when `scrollback` is `None` the slice index is `-0 = 0` and the slice
deletion is a no-op, exactly like the code's no-trim branch. -/
theorem C6_add_effect (log : Log) (rs : List RenderableType) :
    (log.add rs).scrollback = log.scrollback ∧
    (log.add rs).style = log.style ∧
    (log.add rs).console = log.console ∧
    (log.add rs)._buffer
      = pySliceFrom (log._buffer ++ log._render log.console rs)
          (-(log.scrollback.getD 0)) := by
  refine ⟨rfl, rfl, rfl, ?_⟩
  cases h : log.scrollback with
  | none =>
    rw [add_buffer_of_none h]
    simp [pySliceFrom_zero]
  | some s =>
    rw [add_buffer_of_some h]
    rfl

/-- C7: the concrete scenario with `scrollback = 3`: after adding the
single-line items "a", "b", "c", a render of height 2 yields the lines
"b", "c"; after adding "d" the buffer is trimmed to the last 3 lines
"b", "c", "d", and a render of height 3 yields exactly them. -/
theorem C7_scenario :
    Log.rich_console_lines ((((Log.init (some 3) "log" none).add ["a"]).add
        ["b"]).add ["c"]) get_console ⟨some 2, 80⟩ = [["b"], ["c"]] ∧
    (Log.add ((((Log.init (some 3) "log" none).add ["a"]).add ["b"]).add
        ["c"]) ["d"])._buffer = [["b"], ["c"], ["d"]] ∧
    Log.rich_console_lines (Log.add ((((Log.init (some 3) "log" none).add
        ["a"]).add ["b"]).add ["c"]) ["d"]) get_console ⟨some 3, 80⟩
      = [["b"], ["c"], ["d"]] := by
  decide

/-- C8: with `scrollback = 0`, the trim `del self._buffer[: -0]` is
`del self._buffer[:0]` and deletes nothing, so every add appends and no
line is ever removed: the buffer after any sequence of `add` calls is the
previous buffer followed by all rendered lines, growing without bound. -/
theorem C8_scrollback_zero (log : Log) (h : log.scrollback = some 0)
    (adds : List (List RenderableType)) :
    (applyAdds log adds)._buffer = log._buffer ++ allRendered log adds ∧
    ((applyAdds log adds)._buffer).length
      = (log._buffer).length + (allRendered log adds).length := by
  have hb := applyAdds_buffer_keep adds log (Or.inr h)
  exact ⟨hb, by rw [hb, List.length_append]⟩

theorem C8_witness :
    (Log.init (some 0) "log" none).scrollback = some 0 ∧
    ((applyAdds (Log.init (some 0) "log" none) [["a"], ["b"]])._buffer
      = (Log.init (some 0) "log" none)._buffer
        ++ allRendered (Log.init (some 0) "log" none) [["a"], ["b"]] ∧
    ((applyAdds (Log.init (some 0) "log" none) [["a"], ["b"]])._buffer).length
      = ((Log.init (some 0) "log" none)._buffer).length
        + (allRendered (Log.init (some 0) "log" none) [["a"], ["b"]]).length) :=
  ⟨rfl, C8_scrollback_zero (Log.init (some 0) "log" none) rfl [["a"], ["b"]]⟩

/-- C9: `__rich_console__` is a pure read: it assigns no field, so the
post-state equals the pre-state, and a second render with the same console
and the same options (same width and height) yields identical output. -/
theorem C9_render_pure (log : Log) (c : Console) (o : ConsoleOptions) :
    (log.rich_console c o).2 = log ∧
    ((log.rich_console c o).2.rich_console c o).1 = (log.rich_console c o).1 :=
  ⟨rfl, rfl⟩

/-- C10: constructing a `Log` with every argument left to its default sets
`scrollback` to 1000 (a bounded buffer), not `None`; unlimited retention
requires passing `scrollback = None` explicitly. -/
theorem C10_default_scrollback :
    Log.init_default.scrollback = some 1000 ∧
    Log.init_default.scrollback ≠ none ∧
    (Log.init none "log" none).scrollback = none := by
  decide

end RichLog

